import Mathlib

/-!
Verification of the `gstreamer-rtsp` binding crate.

Text is modelled as `List Char`.  Pure Rust helpers (`builders.rs`,
`rtsp_connection.rs` wrapper logic) are translated directly from the source;
the transport parser, serializer and record defaults live in the underlying
C library, so they are modelled from the specification (each such definition
carries a doc comment starting with `Modelled from the spec:`).
-/

namespace GstRtsp

/-! ## Character and numeral utilities -/

/-- Decimal digit test on a character, by code point (48..57). -/
def isDigitC (c : Char) : Bool := 48 ≤ c.toNat && c.toNat ≤ 57

/-- The character for a single decimal digit. -/
def digitChar (d : Nat) : Char :=
  match d with
  | 0 => '0' | 1 => '1' | 2 => '2' | 3 => '3' | 4 => '4'
  | 5 => '5' | 6 => '6' | 7 => '7' | 8 => '8' | 9 => '9'
  | _ => '*'

/-- Numeric value of a digit character. -/
def dval (c : Char) : Nat := c.toNat - 48

/-- Decimal representation of a natural number, most significant digit first. -/
def natRepr (n : Nat) : List Char :=
  if _h : n < 10 then [digitChar n]
  else natRepr (n / 10) ++ [digitChar (n % 10)]
decreasing_by exact Nat.div_lt_self (by omega) (by omega)

theorem isDigitC_digitChar {d : Nat} (h : d < 10) : isDigitC (digitChar d) = true := by
  interval_cases d <;> decide

theorem dval_digitChar {d : Nat} (h : d < 10) : dval (digitChar d) = d := by
  interval_cases d <;> decide

theorem natRepr_digits (n : Nat) : ∀ c ∈ natRepr n, isDigitC c = true := by
  induction n using Nat.strong_induction_on with
  | _ n ih =>
    rw [natRepr]
    split
    · intro c hc
      simp only [List.mem_singleton] at hc
      subst hc
      exact isDigitC_digitChar (by omega)
    · intro c hc
      rcases List.mem_append.mp hc with h1 | h2
      · exact ih (n / 10) (Nat.div_lt_self (by omega) (by omega)) c h1
      · simp only [List.mem_singleton] at h2
        subst h2
        exact isDigitC_digitChar (Nat.mod_lt _ (by omega))

theorem natRepr_ne_nil (n : Nat) : natRepr n ≠ [] := by
  rw [natRepr]
  split <;> simp

/-- Accumulating decimal scanner: consumes leading digit characters. -/
def scanNat (acc : Nat) (s : List Char) : Nat × List Char :=
  match s with
  | [] => (acc, [])
  | c :: cs => if isDigitC c then scanNat (10 * acc + dval c) cs else (acc, c :: cs)

/-- Reads a leading decimal numeral; fails when no digit starts the text. -/
def takeNat (s : List Char) : Option (Nat × List Char) :=
  match s with
  | [] => none
  | c :: cs => if isDigitC c then some (scanNat 0 (c :: cs)) else none

/-- Text whose first character, if any, is not a digit. -/
def headNotDigit (s : List Char) : Prop :=
  match s with
  | [] => True
  | c :: _ => isDigitC c = false

theorem scanNat_digits_append (ds : List Char) (hd : ∀ c ∈ ds, isDigitC c = true) :
    ∀ acc rest, scanNat acc (ds ++ rest) =
      scanNat (ds.foldl (fun a c => 10 * a + dval c) acc) rest := by
  induction ds with
  | nil => intro acc rest; rfl
  | cons c cs ih =>
    intro acc rest
    have hc : isDigitC c = true := hd c (by simp)
    simp only [List.cons_append, scanNat, hc, if_true, List.foldl_cons]
    exact ih (fun x hx => hd x (by simp [hx])) _ rest

theorem foldl_natRepr (n : Nat) :
    ∀ acc, (natRepr n).foldl (fun a c => 10 * a + dval c) acc =
      acc * 10 ^ (natRepr n).length + n := by
  induction n using Nat.strong_induction_on with
  | _ n ih =>
    intro acc
    rw [natRepr]
    split
    · rename_i h
      simp only [List.foldl_cons, List.foldl_nil, List.length_cons, List.length_nil,
        dval_digitChar h]
      ring
    · rename_i h
      have hm : n % 10 < 10 := Nat.mod_lt _ (by omega)
      rw [List.foldl_append, ih (n / 10) (Nat.div_lt_self (by omega) (by omega))]
      simp only [List.foldl_cons, List.foldl_nil, List.length_append, List.length_cons,
        List.length_nil, dval_digitChar hm]
      calc 10 * (acc * 10 ^ (natRepr (n / 10)).length + n / 10) + n % 10
          = acc * (10 ^ (natRepr (n / 10)).length * 10) + (10 * (n / 10) + n % 10) := by
            ring
        _ = acc * 10 ^ ((natRepr (n / 10)).length + (0 + 1)) + n := by
            rw [Nat.pow_succ, Nat.div_add_mod]

theorem scanNat_stops (acc : Nat) (rest : List Char) (h : headNotDigit rest) :
    scanNat acc rest = (acc, rest) := by
  cases rest with
  | nil => rfl
  | cons c cs => simp [scanNat, headNotDigit] at h ⊢; simp [h]

theorem scanNat_natRepr (n : Nat) (rest : List Char) (h : headNotDigit rest) :
    scanNat 0 (natRepr n ++ rest) = (n, rest) := by
  rw [scanNat_digits_append (natRepr n) (natRepr_digits n), foldl_natRepr,
    scanNat_stops _ _ h]
  simp

theorem takeNat_natRepr (n : Nat) (rest : List Char) (h : headNotDigit rest) :
    takeNat (natRepr n ++ rest) = some (n, rest) := by
  rcases he : natRepr n with _ | ⟨c, cs⟩
  · exact absurd he (natRepr_ne_nil n)
  · have hc : isDigitC c = true := natRepr_digits n c (by rw [he]; simp)
    have hs := scanNat_natRepr n rest h
    rw [he, List.cons_append] at hs
    simp [takeNat, hc, hs]

theorem takeNat_natRepr_nil (n : Nat) : takeNat (natRepr n) = some (n, []) := by
  have := takeNat_natRepr n [] trivial
  simpa using this

/-! ## Splitting and joining text -/

/-- Split on a separator character; mirrors Rust's `str::split` on `List Char`
(the result is never empty, and an empty text yields one empty piece). -/
def splitOnChar (sep : Char) (s : List Char) : List (List Char) :=
  match s with
  | [] => [[]]
  | c :: cs =>
    let r := splitOnChar sep cs
    if c = sep then [] :: r
    else
      match r with
      | [] => [[c]]
      | x :: xs => (c :: x) :: xs

/-- Join pieces with a separator character (inverse of `splitOnChar`). -/
def joinWith (sep : Char) (xss : List (List Char)) : List Char :=
  match xss with
  | [] => []
  | [x] => x
  | x :: xs => x ++ sep :: joinWith sep xs

theorem splitOnChar_ne_nil (sep : Char) (s : List Char) : splitOnChar sep s ≠ [] := by
  cases s with
  | nil => simp [splitOnChar]
  | cons c cs =>
    simp only [splitOnChar]
    split
    · simp
    · split <;> simp

theorem splitOnChar_no_sep (sep : Char) (s : List Char) (h : sep ∉ s) :
    splitOnChar sep s = [s] := by
  induction s with
  | nil => rfl
  | cons c cs ih =>
    have hc : ¬(c = sep) := fun he => h (by simp [he])
    have hcs : sep ∉ cs := fun hm => h (by simp [hm])
    simp only [splitOnChar, ih hcs, if_neg hc]

theorem splitOnChar_append_sep (sep : Char) (s rest : List Char) (h : sep ∉ s) :
    splitOnChar sep (s ++ sep :: rest) = s :: splitOnChar sep rest := by
  induction s with
  | nil => simp [splitOnChar]
  | cons c cs ih =>
    have hc : ¬(c = sep) := fun he => h (by simp [he])
    have hcs : sep ∉ cs := fun hm => h (by simp [hm])
    have hrec := ih hcs
    simp only [List.cons_append, splitOnChar, List.append_eq, hrec, if_neg hc]

theorem splitOnChar_joinWith (sep : Char) (xss : List (List Char))
    (hne : xss ≠ []) (h : ∀ xs ∈ xss, sep ∉ xs) :
    splitOnChar sep (joinWith sep xss) = xss := by
  induction xss with
  | nil => exact absurd rfl hne
  | cons x xs ih =>
    cases xs with
    | nil => exact splitOnChar_no_sep sep x (h x (by simp))
    | cons y ys =>
      have hx : sep ∉ x := h x (by simp)
      have hrest : splitOnChar sep (joinWith sep (y :: ys)) = y :: ys :=
        ih (by simp) (fun z hz => h z (by simp [hz]))
      calc splitOnChar sep (joinWith sep (x :: y :: ys))
          = splitOnChar sep (x ++ sep :: joinWith sep (y :: ys)) := rfl
        _ = x :: splitOnChar sep (joinWith sep (y :: ys)) :=
            splitOnChar_append_sep sep x _ hx
        _ = x :: y :: ys := by rw [hrest]

/-- Split at the first occurrence of a separator: the part before it and,
when the separator occurs, the part after it.  Mirrors Rust's
`str::find` followed by index slicing. -/
def breakAtChar (sep : Char) (s : List Char) : List Char × Option (List Char) :=
  match s with
  | [] => ([], none)
  | c :: cs =>
    if c = sep then ([], some cs)
    else
      let (k, v) := breakAtChar sep cs
      (c :: k, v)

theorem breakAtChar_no_sep (sep : Char) (s : List Char) (h : sep ∉ s) :
    breakAtChar sep s = (s, none) := by
  induction s with
  | nil => rfl
  | cons c cs ih =>
    have hc : ¬(c = sep) := fun he => h (by simp [he])
    have hcs : sep ∉ cs := fun hm => h (by simp [hm])
    simp only [breakAtChar, ih hcs, if_neg hc]

theorem breakAtChar_append (sep : Char) (s rest : List Char) (h : sep ∉ s) :
    breakAtChar sep (s ++ sep :: rest) = (s, some rest) := by
  induction s with
  | nil => simp [breakAtChar]
  | cons c cs ih =>
    have hc : ¬(c = sep) := fun he => h (by simp [he])
    have hcs : sep ∉ cs := fun hm => h (by simp [hm])
    simp only [List.cons_append, breakAtChar, List.append_eq, ih hcs, if_neg hc]

/-! ## Transport data model

Enumerations follow the spec's data model (section 3): open enumerations with
a raw-value fallback, `unknown` carrying raw value 0 in the unset state. -/

/-- Transport protocol: RTP, RDT, or an unknown raw code. -/
inductive RTSPTransMode where
  | unknown (raw : Int)
  | rtp
  | rdt
deriving DecidableEq, Repr

/-- Media profile: AVP, AVPF, SAVP, SAVPF, or an unknown raw code. -/
inductive RTSPProfile where
  | unknown (raw : Int)
  | avp
  | savp
  | avpf
  | savpf
deriving DecidableEq, Repr

/-- Lower transport: UDP unicast, UDP multicast, TCP interleaved, or unknown. -/
inductive RTSPLowerTrans where
  | unknown (raw : Int)
  | udp
  | udpMcast
  | tcp
deriving DecidableEq, Repr

/-- A closed integer interval used for port and channel pairs
(`src/rtsp_transport.rs`, `RTSPRange`). -/
structure RTSPRange where
  min : Int
  max : Int
deriving DecidableEq, Repr

/-- `RTSPRange::new` from `src/rtsp_transport.rs`. -/
def RTSPRange.new (min max : Int) : RTSPRange := ⟨min, max⟩

/-- The transport record (fields of `GstRTSPTransport` as exposed by the
accessors in `src/rtsp_transport.rs`); text fields are owned strings. -/
structure RTSPTransport where
  trans : RTSPTransMode
  profile : RTSPProfile
  lowerTransport : RTSPLowerTrans
  destination : Option (List Char)
  source : Option (List Char)
  layers : Nat
  modePlay : Bool
  modeRecord : Bool
  append : Bool
  interleaved : RTSPRange
  ttl : Nat
  port : RTSPRange
  clientPort : RTSPRange
  serverPort : RTSPRange
  ssrc : Nat
deriving DecidableEq, Repr

/-- Modelled from the spec: `gst_rtsp_transport_init` (the C routine behind
`RTSPTransport::new`, not present in `src/`) — "A Transport created via `new`
has all enumerations in the unknown/unset state (raw value 0) and all ranges
at the unset sentinel `(-1,-1)`", with the booleans false and the numeric
scalars (ttl, layers, ssrc) zero. -/
def transport_init : RTSPTransport :=
  { trans := .unknown 0
    profile := .unknown 0
    lowerTransport := .unknown 0
    destination := none
    source := none
    layers := 0
    modePlay := false
    modeRecord := false
    append := false
    interleaved := ⟨-1, -1⟩
    ttl := 0
    port := ⟨-1, -1⟩
    clientPort := ⟨-1, -1⟩
    serverPort := ⟨-1, -1⟩
    ssrc := 0 }

/-- Modelled from the spec: the success path of `RTSPTransport::new`
(`src/rtsp_transport.rs` lines 77-95 allocates via the C library and then
runs `gst_rtsp_transport_init`; allocation failure is out of scope). -/
def RTSPTransport.new : RTSPTransport := transport_init

/-! ## Transport builder (`src/builders.rs`, `RTSPTransportBuilder`)

Each builder method delegates to the corresponding field setter of the
transport record; `build` returns the accumulated transport unchanged. -/

structure RTSPTransportBuilder where
  transport : RTSPTransport

namespace RTSPTransportBuilder

def new : RTSPTransportBuilder := ⟨RTSPTransport.new⟩

def protocol (b : RTSPTransportBuilder) (trans : RTSPTransMode) : RTSPTransportBuilder :=
  ⟨{ b.transport with trans := trans }⟩

def profile (b : RTSPTransportBuilder) (profile : RTSPProfile) : RTSPTransportBuilder :=
  ⟨{ b.transport with profile := profile }⟩

def lower_transport (b : RTSPTransportBuilder) (lt : RTSPLowerTrans) : RTSPTransportBuilder :=
  ⟨{ b.transport with lowerTransport := lt }⟩

def client_ports (b : RTSPTransportBuilder) (min max : Int) : RTSPTransportBuilder :=
  ⟨{ b.transport with clientPort := RTSPRange.new min max }⟩

def server_ports (b : RTSPTransportBuilder) (min max : Int) : RTSPTransportBuilder :=
  ⟨{ b.transport with serverPort := RTSPRange.new min max }⟩

def interleaved (b : RTSPTransportBuilder) (min max : Int) : RTSPTransportBuilder :=
  ⟨{ b.transport with interleaved := RTSPRange.new min max }⟩

def port (b : RTSPTransportBuilder) (min max : Int) : RTSPTransportBuilder :=
  ⟨{ b.transport with port := RTSPRange.new min max }⟩

def ttl (b : RTSPTransportBuilder) (ttl : Nat) : RTSPTransportBuilder :=
  ⟨{ b.transport with ttl := ttl }⟩

def ssrc (b : RTSPTransportBuilder) (ssrc : Nat) : RTSPTransportBuilder :=
  ⟨{ b.transport with ssrc := ssrc }⟩

def build (b : RTSPTransportBuilder) : RTSPTransport := b.transport

end RTSPTransportBuilder

/-! ## Result codes

The `RTSPResult` enumeration of the binding (`GstRTSPResult`); only the
success code and the invalid-parameter code matter to the claims below. -/

inductive RTSPResult where
  | ok
  | error
  | einval
  | eintr
  | enomem
  | eresolv
  | enotimpl
  | esys
  | eparse
  | ewsastart
  | ewsaversion
  | eeof
  | enet
  | enotip
  | etimeout
  | etget
  | etpost
  | elast
deriving DecidableEq, Repr

/-! ## Transport-parameter text format

`gst_rtsp_transport_parse` and `gst_rtsp_transport_as_text` are implemented
in the C library; `src/rtsp_transport.rs` only declares and calls them.  Both
are modelled from the grammar and serialization policy of the spec
(section 4.2). -/

/-- Token for a transport protocol. -/
def protoToken (m : RTSPTransMode) : List Char :=
  match m with
  | .rtp => 'R' :: 'T' :: 'P' :: []
  | .rdt => 'R' :: 'D' :: 'T' :: []
  | .unknown _ => 'U' :: 'N' :: 'K' :: 'N' :: 'O' :: 'W' :: 'N' :: []

/-- Transport protocol named by a token (unrecognized tokens fall back to the
unknown variant, per the spec's open-enumeration policy). -/
def transModeOfToken (t : List Char) : RTSPTransMode :=
  if t = protoToken .rtp then .rtp
  else if t = protoToken .rdt then .rdt
  else .unknown 0

/-- Token for a media profile. -/
def profileToken (p : RTSPProfile) : List Char :=
  match p with
  | .avp => 'A' :: 'V' :: 'P' :: []
  | .avpf => 'A' :: 'V' :: 'P' :: 'F' :: []
  | .savp => 'S' :: 'A' :: 'V' :: 'P' :: []
  | .savpf => 'S' :: 'A' :: 'V' :: 'P' :: 'F' :: []
  | .unknown _ => 'U' :: 'N' :: 'K' :: 'N' :: 'O' :: 'W' :: 'N' :: []

/-- Media profile named by a token. -/
def profileOfToken (t : List Char) : RTSPProfile :=
  if t = profileToken .avp then .avp
  else if t = profileToken .avpf then .avpf
  else if t = profileToken .savp then .savp
  else if t = profileToken .savpf then .savpf
  else .unknown 0

/-- Lower transport named by an explicit third token of the transport spec. -/
def lowerOfToken (t : List Char) : RTSPLowerTrans :=
  if t = ('T' :: 'C' :: 'P' :: []) then .tcp
  else if t = ('U' :: 'D' :: 'P' :: []) then .udp
  else if t = ('M' :: 'C' :: 'A' :: 'S' :: 'T' :: []) then .udpMcast
  else .unknown 0

/-- Parses `int "-" int | int` (a single value means `min = max`). -/
def parseRange (s : List Char) : Option RTSPRange :=
  match takeNat s with
  | some (n, []) => some ⟨(n : Int), (n : Int)⟩
  | some (n, '-' :: rest) =>
    match takeNat rest with
    | some (m, []) => some ⟨(n : Int), (m : Int)⟩
    | _ => none
  | _ => none

/-- Parses an entire decimal numeral. -/
def parseNatAll (s : List Char) : Option Nat :=
  match takeNat s with
  | some (n, []) => some n
  | _ => none

/-- Upper-cases an ASCII letter (for the case-insensitive `mode` values). -/
def upChar (c : Char) : Char :=
  if 97 ≤ c.toNat && c.toNat ≤ 122 then Char.ofNat (c.toNat - 32) else c

/-- Modelled from the spec: one `";"`-separated parameter of the transport
grammar applied to the record under construction.  Unknown parameters are
tolerated and skipped; a structurally malformed range value is a parse
error; `unicast`/`multicast` set the lower transport only when no explicit
lower-transport token was present. -/
def applyParam (explicitLower : Bool) (t : RTSPTransport) (p : List Char) :
    Except RTSPResult RTSPTransport :=
  if p = ('u' :: 'n' :: 'i' :: 'c' :: 'a' :: 's' :: 't' :: []) then
    .ok (if explicitLower then t else { t with lowerTransport := .udp })
  else if p = ('m' :: 'u' :: 'l' :: 't' :: 'i' :: 'c' :: 'a' :: 's' :: 't' :: []) then
    .ok (if explicitLower then t else { t with lowerTransport := .udpMcast })
  else if p = ('a' :: 'p' :: 'p' :: 'e' :: 'n' :: 'd' :: []) then
    .ok { t with append := true }
  else
    match breakAtChar '=' p with
    | (_, none) => .ok t
    | (key, some v) =>
      if key = ('t' :: 't' :: 'l' :: []) then
        match parseNatAll v with
        | some n => .ok { t with ttl := n }
        | none => .error .einval
      else if key = ('l' :: 'a' :: 'y' :: 'e' :: 'r' :: 's' :: []) then
        match parseNatAll v with
        | some n => .ok { t with layers := n }
        | none => .error .einval
      else if key = ('s' :: 's' :: 'r' :: 'c' :: []) then
        match parseNatAll v with
        | some n => .ok { t with ssrc := n }
        | none => .error .einval
      else if key = ('i' :: 'n' :: 't' :: 'e' :: 'r' :: 'l' :: 'e' :: 'a' :: 'v' :: 'e' :: 'd' :: []) then
        match parseRange v with
        | some r => .ok { t with interleaved := r }
        | none => .error .einval
      else if key = ('p' :: 'o' :: 'r' :: 't' :: []) then
        match parseRange v with
        | some r => .ok { t with port := r }
        | none => .error .einval
      else if key = ('c' :: 'l' :: 'i' :: 'e' :: 'n' :: 't' :: '_' :: 'p' :: 'o' :: 'r' :: 't' :: []) then
        match parseRange v with
        | some r => .ok { t with clientPort := r }
        | none => .error .einval
      else if key = ('s' :: 'e' :: 'r' :: 'v' :: 'e' :: 'r' :: '_' :: 'p' :: 'o' :: 'r' :: 't' :: []) then
        match parseRange v with
        | some r => .ok { t with serverPort := r }
        | none => .error .einval
      else if key = ('d' :: 'e' :: 's' :: 't' :: 'i' :: 'n' :: 'a' :: 't' :: 'i' :: 'o' :: 'n' :: []) then
        .ok { t with destination := some v }
      else if key = ('s' :: 'o' :: 'u' :: 'r' :: 'c' :: 'e' :: []) then
        .ok { t with source := some v }
      else if key = ('m' :: 'o' :: 'd' :: 'e' :: []) then
        let entries := (splitOnChar ',' (v.filter (fun c => !(c = '"')))).map
          (fun e => e.map upChar)
        .ok { t with
          modePlay := entries.contains ('P' :: 'L' :: 'A' :: 'Y' :: [])
          modeRecord := entries.contains ('R' :: 'E' :: 'C' :: 'O' :: 'R' :: 'D' :: []) }
      else
        .ok t

/-- Folds `applyParam` over the parameter segments. -/
def applyParams (explicitLower : Bool) (t : RTSPTransport) (ps : List (List Char)) :
    Except RTSPResult RTSPTransport :=
  match ps with
  | [] => .ok t
  | p :: rest =>
    match applyParam explicitLower t p with
    | .ok t2 => applyParams explicitLower t2 rest
    | .error e => .error e

/-- Modelled from the spec: `gst_rtsp_transport_parse` (C library, declared in
`src/rtsp_transport.rs`) — the grammar of section 4.2:
`transport-spec := protocol "/" profile [ "/" lower-transport ] *( ";" parameter )`.
Empty or garbage input (no `protocol "/" profile` framing) yields an error,
never a default-valued success. -/
def RTSPTransport.parse (s : List Char) : Except RTSPResult RTSPTransport :=
  match splitOnChar ';' s with
  | [] => .error .einval
  | sp :: params =>
    match splitOnChar '/' sp with
    | [pr, pf] =>
      if pr.isEmpty || pf.isEmpty then .error .einval
      else
        applyParams false
          { transport_init with trans := transModeOfToken pr, profile := profileOfToken pf }
          params
    | [pr, pf, lt] =>
      if pr.isEmpty || pf.isEmpty || lt.isEmpty then .error .einval
      else
        applyParams true
          { transport_init with
              trans := transModeOfToken pr
              profile := profileOfToken pf
              lowerTransport := lowerOfToken lt }
          params
    | _ => .error .einval

/-- A range is set when it differs from the unset sentinel `(-1,-1)`. -/
def rangeIsSet (r : RTSPRange) : Bool := !(r.min = -1 && r.max = -1)

/-- Decimal representation of a (possibly negative) integer. -/
def intRepr (i : Int) : List Char :=
  if i < 0 then '-' :: natRepr i.natAbs else natRepr i.toNat

/-- `min "-" max` text of a range. -/
def rangeRepr (r : RTSPRange) : List Char :=
  intRepr r.min ++ '-' :: intRepr r.max

/-- The serialized `mode="..."` value list. -/
def modeListRepr (t : RTSPTransport) : List Char :=
  if t.modePlay && t.modeRecord then
    '"' :: 'P' :: 'L' :: 'A' :: 'Y' :: ',' :: 'R' :: 'E' :: 'C' :: 'O' :: 'R' :: 'D' :: '"' :: []
  else if t.modeRecord then
    '"' :: 'R' :: 'E' :: 'C' :: 'O' :: 'R' :: 'D' :: '"' :: []
  else
    '"' :: 'P' :: 'L' :: 'A' :: 'Y' :: '"' :: []

/-- Modelled from the spec: the `";"`-separated segments emitted by
`gst_rtsp_transport_as_text` — protocol framing first (with an explicit
lower-transport token only for TCP), then the unicast/multicast mode keyword,
then `append`, then only the non-default ranges, scalars, addresses and the
`mode=` list, in the stable order of section 4.2. -/
def transportSegments (t : RTSPTransport) : List (List Char) :=
  [protoToken t.trans ++ '/' :: profileToken t.profile ++
      (if t.lowerTransport = .tcp then '/' :: 'T' :: 'C' :: 'P' :: [] else [])]
  ++ (if t.lowerTransport = .udp then [('u' :: 'n' :: 'i' :: 'c' :: 'a' :: 's' :: 't' :: [])] else [])
  ++ (if t.lowerTransport = .udpMcast then
        [('m' :: 'u' :: 'l' :: 't' :: 'i' :: 'c' :: 'a' :: 's' :: 't' :: [])] else [])
  ++ (if t.append then [('a' :: 'p' :: 'p' :: 'e' :: 'n' :: 'd' :: [])] else [])
  ++ (if rangeIsSet t.interleaved then
        [('i' :: 'n' :: 't' :: 'e' :: 'r' :: 'l' :: 'e' :: 'a' :: 'v' :: 'e' :: 'd' :: []) ++
          '=' :: rangeRepr t.interleaved] else [])
  ++ (if rangeIsSet t.port then
        [('p' :: 'o' :: 'r' :: 't' :: []) ++ '=' :: rangeRepr t.port] else [])
  ++ (if rangeIsSet t.clientPort then
        [('c' :: 'l' :: 'i' :: 'e' :: 'n' :: 't' :: '_' :: 'p' :: 'o' :: 'r' :: 't' :: []) ++
          '=' :: rangeRepr t.clientPort] else [])
  ++ (if rangeIsSet t.serverPort then
        [('s' :: 'e' :: 'r' :: 'v' :: 'e' :: 'r' :: '_' :: 'p' :: 'o' :: 'r' :: 't' :: []) ++
          '=' :: rangeRepr t.serverPort] else [])
  ++ (if t.ttl = 0 then [] else [('t' :: 't' :: 'l' :: []) ++ '=' :: natRepr t.ttl])
  ++ (if t.layers = 0 then [] else [('l' :: 'a' :: 'y' :: 'e' :: 'r' :: 's' :: []) ++ '=' :: natRepr t.layers])
  ++ (if t.ssrc = 0 then [] else [('s' :: 's' :: 'r' :: 'c' :: []) ++ '=' :: natRepr t.ssrc])
  ++ (match t.destination with
      | some d => [('d' :: 'e' :: 's' :: 't' :: 'i' :: 'n' :: 'a' :: 't' :: 'i' :: 'o' :: 'n' :: []) ++ '=' :: d]
      | none => [])
  ++ (match t.source with
      | some sc => [('s' :: 'o' :: 'u' :: 'r' :: 'c' :: 'e' :: []) ++ '=' :: sc]
      | none => [])
  ++ (if t.modePlay || t.modeRecord then
        [('m' :: 'o' :: 'd' :: 'e' :: []) ++ '=' :: modeListRepr t] else [])

/-- Modelled from the spec: `gst_rtsp_transport_as_text` (C library, declared
in `src/rtsp_transport.rs`) — joins the stable-order segments with `";"`. -/
def RTSPTransport.as_text (t : RTSPTransport) : List Char :=
  joinWith ';' (transportSegments t)

/-! ## Round-trip of canonical builder transports -/

/-- A transport built via the builder with a canonical field set: protocol,
profile, lower transport, and the one port-range kind matching the lower
transport (TCP with interleaved, UDP with client ports, multicast with the
multicast port pair). -/
def buildCanonical (m : RTSPTransMode) (p : RTSPProfile) (lt : RTSPLowerTrans)
    (a b : Nat) : RTSPTransport :=
  let base := ((RTSPTransportBuilder.new.protocol m).profile p).lower_transport lt
  match lt with
  | .tcp => (base.interleaved (a : Int) (b : Int)).build
  | .udpMcast => (base.port (a : Int) (b : Int)).build
  | _ => (base.client_ports (a : Int) (b : Int)).build

/-- The port-range field matching a lower-transport kind. -/
def canonicalRangeField (lt : RTSPLowerTrans) (t : RTSPTransport) : RTSPRange :=
  match lt with
  | .tcp => t.interleaved
  | .udpMcast => t.port
  | _ => t.clientPort

theorem rangeIsSet_natCast (a b : Nat) :
    rangeIsSet ⟨(a : Int), (b : Int)⟩ = true := by
  simp only [rangeIsSet, Bool.not_eq_eq_eq_not, Bool.not_true, Bool.and_eq_false_imp,
    decide_eq_true_eq, decide_eq_false_iff_not]
  omega

theorem intRepr_natCast (a : Nat) : intRepr ((a : Int)) = natRepr a := by
  unfold intRepr
  rw [if_neg (by omega), show ((a : Int)).toNat = a by omega]

theorem not_digit_notMem_natRepr {c : Char} (n : Nat) (hc : isDigitC c = false) :
    c ∉ natRepr n := by
  intro hm
  rw [natRepr_digits n c hm] at hc
  cases hc

theorem semi_notMem_rangeRepr (a b : Nat) :
    ';' ∉ rangeRepr ⟨(a : Int), (b : Int)⟩ := by
  unfold rangeRepr
  rw [intRepr_natCast, intRepr_natCast]
  intro hm
  simp only [List.mem_append, List.mem_cons] at hm
  rcases hm with h | h | h
  · exact not_digit_notMem_natRepr a (by decide) h
  · cases h
  · exact not_digit_notMem_natRepr b (by decide) h

theorem parseRange_rangeRepr (a b : Nat) :
    parseRange (rangeRepr ⟨(a : Int), (b : Int)⟩) = some ⟨(a : Int), (b : Int)⟩ := by
  have h1 : takeNat (natRepr a ++ '-' :: natRepr b) = some (a, '-' :: natRepr b) :=
    takeNat_natRepr a _ (by show isDigitC '-' = false; decide)
  simp [parseRange, rangeRepr, intRepr_natCast, h1, takeNat_natRepr_nil]

theorem split_spec_two (pr pf : List Char) (hpr : '/' ∉ pr) (hpf : '/' ∉ pf) :
    splitOnChar '/' (pr ++ '/' :: pf) = [pr, pf] := by
  rw [splitOnChar_append_sep _ _ _ hpr, splitOnChar_no_sep _ _ hpf]

theorem split_spec_three (pr pf lt : List Char) (hpr : '/' ∉ pr) (hpf : '/' ∉ pf)
    (hlt : '/' ∉ lt) :
    splitOnChar '/' (pr ++ '/' :: (pf ++ '/' :: lt)) = [pr, pf, lt] := by
  rw [splitOnChar_append_sep _ _ _ hpr, splitOnChar_append_sep _ _ _ hpf,
    splitOnChar_no_sep _ _ hlt]

theorem transModeOfToken_protoToken {m : RTSPTransMode} (hm : m = .rtp ∨ m = .rdt) :
    transModeOfToken (protoToken m) = m := by
  rcases hm with rfl | rfl <;> decide

theorem profileOfToken_profileToken {p : RTSPProfile}
    (hp : p = .avp ∨ p = .avpf ∨ p = .savp ∨ p = .savpf) :
    profileOfToken (profileToken p) = p := by
  rcases hp with rfl | rfl | rfl | rfl <;> decide

theorem slash_notMem_protoToken {m : RTSPTransMode} (hm : m = .rtp ∨ m = .rdt) :
    '/' ∉ protoToken m := by
  rcases hm with rfl | rfl <;> decide

theorem slash_notMem_profileToken {p : RTSPProfile}
    (hp : p = .avp ∨ p = .avpf ∨ p = .savp ∨ p = .savpf) :
    '/' ∉ profileToken p := by
  rcases hp with rfl | rfl | rfl | rfl <;> decide

theorem semi_notMem_protoToken {m : RTSPTransMode} (hm : m = .rtp ∨ m = .rdt) :
    ';' ∉ protoToken m := by
  rcases hm with rfl | rfl <;> decide

theorem semi_notMem_profileToken {p : RTSPProfile}
    (hp : p = .avp ∨ p = .avpf ∨ p = .savp ∨ p = .savpf) :
    ';' ∉ profileToken p := by
  rcases hp with rfl | rfl | rfl | rfl <;> decide

theorem protoToken_ne_nil {m : RTSPTransMode} (hm : m = .rtp ∨ m = .rdt) :
    protoToken m ≠ [] := by
  rcases hm with rfl | rfl <;> decide

theorem profileToken_ne_nil {p : RTSPProfile}
    (hp : p = .avp ∨ p = .avpf ∨ p = .savp ∨ p = .savpf) :
    profileToken p ≠ [] := by
  rcases hp with rfl | rfl | rfl | rfl <;> decide

theorem rangeIsSet_sentinel : rangeIsSet ⟨-1, -1⟩ = false := by decide

theorem semi_notMem_keyval {key v : List Char} (hk : ';' ∉ key) (hv : ';' ∉ v) :
    ';' ∉ key ++ '=' :: v := by
  intro h
  rcases List.mem_append.mp h with h | h
  · exact hk h
  · rcases List.mem_cons.mp h with h | h
    · cases h
    · exact hv h

theorem roundtrip_udp (m : RTSPTransMode) (p : RTSPProfile) (a b : Nat)
    (hm : m = .rtp ∨ m = .rdt)
    (hp : p = .avp ∨ p = .avpf ∨ p = .savp ∨ p = .savpf) :
    RTSPTransport.parse (RTSPTransport.as_text (buildCanonical m p .udp a b)) =
      .ok (buildCanonical m p .udp a b) := by
  have hT : buildCanonical m p .udp a b =
      { transport_init with
          trans := m
          profile := p
          lowerTransport := .udp
          clientPort := ⟨(a : Int), (b : Int)⟩ } := rfl
  have hseg : transportSegments (buildCanonical m p .udp a b) =
      [protoToken m ++ '/' :: profileToken p,
       ('u' :: 'n' :: 'i' :: 'c' :: 'a' :: 's' :: 't' :: []),
       ('c' :: 'l' :: 'i' :: 'e' :: 'n' :: 't' :: '_' :: 'p' :: 'o' :: 'r' :: 't' :: []) ++
         '=' :: rangeRepr ⟨(a : Int), (b : Int)⟩] := by
    rw [hT]
    simp [transportSegments, rangeIsSet_natCast, rangeIsSet_sentinel, transport_init]
  have hsplit : splitOnChar ';' (RTSPTransport.as_text (buildCanonical m p .udp a b)) =
      [protoToken m ++ '/' :: profileToken p,
       ('u' :: 'n' :: 'i' :: 'c' :: 'a' :: 's' :: 't' :: []),
       ('c' :: 'l' :: 'i' :: 'e' :: 'n' :: 't' :: '_' :: 'p' :: 'o' :: 'r' :: 't' :: []) ++
         '=' :: rangeRepr ⟨(a : Int), (b : Int)⟩] := by
    rw [RTSPTransport.as_text, hseg]
    refine splitOnChar_joinWith ';' _ (by simp) ?_
    intro xs hxs
    simp only [List.mem_cons, List.not_mem_nil, or_false] at hxs
    rcases hxs with rfl | rfl | rfl
    · intro h
      rcases List.mem_append.mp h with h | h
      · exact semi_notMem_protoToken hm h
      · rcases List.mem_cons.mp h with h | h
        · cases h
        · exact semi_notMem_profileToken hp h
    · decide
    · exact semi_notMem_keyval (by decide) (semi_notMem_rangeRepr a b)
  have hpr : (protoToken m).isEmpty = false := by
    rcases hm with rfl | rfl <;> decide
  have hpf : (profileToken p).isEmpty = false := by
    rcases hp with rfl | rfl | rfl | rfl <;> decide
  have hbr : breakAtChar '='
      ('c' :: 'l' :: 'i' :: 'e' :: 'n' :: 't' :: '_' :: 'p' :: 'o' :: 'r' :: 't' :: '=' ::
        rangeRepr ⟨(a : Int), (b : Int)⟩) =
      (('c' :: 'l' :: 'i' :: 'e' :: 'n' :: 't' :: '_' :: 'p' :: 'o' :: 'r' :: 't' :: []),
        some (rangeRepr ⟨(a : Int), (b : Int)⟩)) := by
    simpa using breakAtChar_append '='
      ('c' :: 'l' :: 'i' :: 'e' :: 'n' :: 't' :: '_' :: 'p' :: 'o' :: 'r' :: 't' :: [])
      (rangeRepr ⟨(a : Int), (b : Int)⟩) (by decide)
  rw [RTSPTransport.parse, hsplit, hT]
  simp [split_spec_two _ _ (slash_notMem_protoToken hm) (slash_notMem_profileToken hp),
    hpr, hpf, transModeOfToken_protoToken hm, profileOfToken_profileToken hp,
    applyParams, applyParam, hbr, parseRange_rangeRepr]


theorem roundtrip_tcp (m : RTSPTransMode) (p : RTSPProfile) (a b : Nat)
    (hm : m = .rtp ∨ m = .rdt)
    (hp : p = .avp ∨ p = .avpf ∨ p = .savp ∨ p = .savpf) :
    RTSPTransport.parse (RTSPTransport.as_text (buildCanonical m p .tcp a b)) =
      .ok (buildCanonical m p .tcp a b) := by
  have hT : buildCanonical m p .tcp a b =
      { transport_init with
          trans := m
          profile := p
          lowerTransport := .tcp
          interleaved := ⟨(a : Int), (b : Int)⟩ } := rfl
  have hseg : transportSegments (buildCanonical m p .tcp a b) =
      [protoToken m ++ '/' :: (profileToken p ++ '/' :: 'T' :: 'C' :: 'P' :: []),
       ('i' :: 'n' :: 't' :: 'e' :: 'r' :: 'l' :: 'e' :: 'a' :: 'v' :: 'e' :: 'd' :: []) ++
         '=' :: rangeRepr ⟨(a : Int), (b : Int)⟩] := by
    rw [hT]
    simp [transportSegments, rangeIsSet_natCast, rangeIsSet_sentinel, transport_init]
  have hsplit : splitOnChar ';' (RTSPTransport.as_text (buildCanonical m p .tcp a b)) =
      [protoToken m ++ '/' :: (profileToken p ++ '/' :: 'T' :: 'C' :: 'P' :: []),
       ('i' :: 'n' :: 't' :: 'e' :: 'r' :: 'l' :: 'e' :: 'a' :: 'v' :: 'e' :: 'd' :: []) ++
         '=' :: rangeRepr ⟨(a : Int), (b : Int)⟩] := by
    rw [RTSPTransport.as_text, hseg]
    refine splitOnChar_joinWith ';' _ (by simp) ?_
    intro xs hxs
    simp only [List.mem_cons, List.not_mem_nil, or_false] at hxs
    rcases hxs with rfl | rfl
    · intro h
      rcases List.mem_append.mp h with h | h
      · exact semi_notMem_protoToken hm h
      · rcases List.mem_cons.mp h with h | h
        · cases h
        · rcases List.mem_append.mp h with h | h
          · exact semi_notMem_profileToken hp h
          · simp only [List.mem_cons, List.not_mem_nil, or_false] at h
            rcases h with h | h | h | h <;> cases h
    · exact semi_notMem_keyval (by decide) (semi_notMem_rangeRepr a b)
  have hpr : (protoToken m).isEmpty = false := by
    rcases hm with rfl | rfl <;> decide
  have hpf : (profileToken p).isEmpty = false := by
    rcases hp with rfl | rfl | rfl | rfl <;> decide
  have hbr : breakAtChar '='
      ('i' :: 'n' :: 't' :: 'e' :: 'r' :: 'l' :: 'e' :: 'a' :: 'v' :: 'e' :: 'd' :: '=' ::
        rangeRepr ⟨(a : Int), (b : Int)⟩) =
      (('i' :: 'n' :: 't' :: 'e' :: 'r' :: 'l' :: 'e' :: 'a' :: 'v' :: 'e' :: 'd' :: []),
        some (rangeRepr ⟨(a : Int), (b : Int)⟩)) := by
    simpa using breakAtChar_append '='
      ('i' :: 'n' :: 't' :: 'e' :: 'r' :: 'l' :: 'e' :: 'a' :: 'v' :: 'e' :: 'd' :: [])
      (rangeRepr ⟨(a : Int), (b : Int)⟩) (by decide)
  rw [RTSPTransport.parse, hsplit, hT]
  simp [split_spec_three (protoToken m) (profileToken p) ('T' :: 'C' :: 'P' :: [])
      (slash_notMem_protoToken hm) (slash_notMem_profileToken hp) (by decide),
    hpr, hpf, transModeOfToken_protoToken hm, profileOfToken_profileToken hp,
    lowerOfToken, applyParams, applyParam, hbr, parseRange_rangeRepr]

theorem roundtrip_mcast (m : RTSPTransMode) (p : RTSPProfile) (a b : Nat)
    (hm : m = .rtp ∨ m = .rdt)
    (hp : p = .avp ∨ p = .avpf ∨ p = .savp ∨ p = .savpf) :
    RTSPTransport.parse (RTSPTransport.as_text (buildCanonical m p .udpMcast a b)) =
      .ok (buildCanonical m p .udpMcast a b) := by
  have hT : buildCanonical m p .udpMcast a b =
      { transport_init with
          trans := m
          profile := p
          lowerTransport := .udpMcast
          port := ⟨(a : Int), (b : Int)⟩ } := rfl
  have hseg : transportSegments (buildCanonical m p .udpMcast a b) =
      [protoToken m ++ '/' :: profileToken p,
       ('m' :: 'u' :: 'l' :: 't' :: 'i' :: 'c' :: 'a' :: 's' :: 't' :: []),
       ('p' :: 'o' :: 'r' :: 't' :: []) ++ '=' :: rangeRepr ⟨(a : Int), (b : Int)⟩] := by
    rw [hT]
    simp [transportSegments, rangeIsSet_natCast, rangeIsSet_sentinel, transport_init]
  have hsplit : splitOnChar ';' (RTSPTransport.as_text (buildCanonical m p .udpMcast a b)) =
      [protoToken m ++ '/' :: profileToken p,
       ('m' :: 'u' :: 'l' :: 't' :: 'i' :: 'c' :: 'a' :: 's' :: 't' :: []),
       ('p' :: 'o' :: 'r' :: 't' :: []) ++ '=' :: rangeRepr ⟨(a : Int), (b : Int)⟩] := by
    rw [RTSPTransport.as_text, hseg]
    refine splitOnChar_joinWith ';' _ (by simp) ?_
    intro xs hxs
    simp only [List.mem_cons, List.not_mem_nil, or_false] at hxs
    rcases hxs with rfl | rfl | rfl
    · intro h
      rcases List.mem_append.mp h with h | h
      · exact semi_notMem_protoToken hm h
      · rcases List.mem_cons.mp h with h | h
        · cases h
        · exact semi_notMem_profileToken hp h
    · decide
    · exact semi_notMem_keyval (by decide) (semi_notMem_rangeRepr a b)
  have hpr : (protoToken m).isEmpty = false := by
    rcases hm with rfl | rfl <;> decide
  have hpf : (profileToken p).isEmpty = false := by
    rcases hp with rfl | rfl | rfl | rfl <;> decide
  have hbr : breakAtChar '='
      ('p' :: 'o' :: 'r' :: 't' :: '=' :: rangeRepr ⟨(a : Int), (b : Int)⟩) =
      (('p' :: 'o' :: 'r' :: 't' :: []), some (rangeRepr ⟨(a : Int), (b : Int)⟩)) := by
    simpa using breakAtChar_append '=' ('p' :: 'o' :: 'r' :: 't' :: [])
      (rangeRepr ⟨(a : Int), (b : Int)⟩) (by decide)
  rw [RTSPTransport.parse, hsplit, hT]
  simp [split_spec_two _ _ (slash_notMem_protoToken hm) (slash_notMem_profileToken hp),
    hpr, hpf, transModeOfToken_protoToken hm, profileOfToken_profileToken hp,
    applyParams, applyParam, hbr, parseRange_rangeRepr]

/-- Claim C2: parsing the serialized text of a canonical builder transport
reproduces the protocol, profile and lower transport exactly, and the
port-range field matching the lower-transport kind exactly: parse composed
with as_text is the identity on those fields. -/
theorem transport_roundtrip_canonical
    (m : RTSPTransMode) (p : RTSPProfile) (lt : RTSPLowerTrans) (a b : Nat)
    (hm : m = .rtp ∨ m = .rdt)
    (hp : p = .avp ∨ p = .avpf ∨ p = .savp ∨ p = .savpf)
    (hl : lt = .udp ∨ lt = .udpMcast ∨ lt = .tcp) :
    ∃ t2, RTSPTransport.parse (RTSPTransport.as_text (buildCanonical m p lt a b)) =
        .ok t2 ∧
      t2.trans = (buildCanonical m p lt a b).trans ∧
      t2.profile = (buildCanonical m p lt a b).profile ∧
      t2.lowerTransport = (buildCanonical m p lt a b).lowerTransport ∧
      canonicalRangeField lt t2 = canonicalRangeField lt (buildCanonical m p lt a b) := by
  have h : RTSPTransport.parse (RTSPTransport.as_text (buildCanonical m p lt a b)) =
      .ok (buildCanonical m p lt a b) := by
    rcases hl with rfl | rfl | rfl
    · exact roundtrip_udp m p a b hm hp
    · exact roundtrip_mcast m p a b hm hp
    · exact roundtrip_tcp m p a b hm hp
  exact ⟨buildCanonical m p lt a b, h, rfl, rfl, rfl, rfl⟩

/-- Witness for C2 at RTP/AVP over UDP with client ports 5000-5001. -/
theorem transport_roundtrip_canonical_witness :
    ∃ t2, RTSPTransport.parse
        (RTSPTransport.as_text (buildCanonical .rtp .avp .udp 5000 5001)) = .ok t2 ∧
      t2.trans = (buildCanonical .rtp .avp .udp 5000 5001).trans ∧
      t2.profile = (buildCanonical .rtp .avp .udp 5000 5001).profile ∧
      t2.lowerTransport = (buildCanonical .rtp .avp .udp 5000 5001).lowerTransport ∧
      canonicalRangeField .udp t2 =
        canonicalRangeField .udp (buildCanonical .rtp .avp .udp 5000 5001) :=
  transport_roundtrip_canonical .rtp .avp .udp 5000 5001 (Or.inl rfl) (Or.inl rfl)
    (Or.inl rfl)

/-- Claim C3: `Transport::parse` rejects the empty string, `"INVALID"` and
`";;;"` with an error result, never a default-valued success. -/
theorem parse_rejects_empty_and_garbage :
    RTSPTransport.parse ("".toList) = .error .einval ∧
    RTSPTransport.parse ("INVALID".toList) = .error .einval ∧
    RTSPTransport.parse (";;;".toList) = .error .einval := by
  refine ⟨rfl, rfl, rfl⟩

/-- Claim C5: a Transport created via `Transport::new` has both mode flags
and append false, ttl and ssrc zero, every enumeration in the unknown state
with raw value 0, and every range field at the unset sentinel `(-1,-1)`. -/
theorem transport_new_defaults :
    RTSPTransport.new.modePlay = false ∧
    RTSPTransport.new.modeRecord = false ∧
    RTSPTransport.new.append = false ∧
    RTSPTransport.new.ttl = 0 ∧
    RTSPTransport.new.ssrc = 0 ∧
    RTSPTransport.new.trans = .unknown 0 ∧
    RTSPTransport.new.profile = .unknown 0 ∧
    RTSPTransport.new.lowerTransport = .unknown 0 ∧
    RTSPTransport.new.clientPort = ⟨-1, -1⟩ ∧
    RTSPTransport.new.serverPort = ⟨-1, -1⟩ ∧
    RTSPTransport.new.interleaved = ⟨-1, -1⟩ ∧
    RTSPTransport.new.port = ⟨-1, -1⟩ ∧
    RTSPTransport.new.destination = none ∧
    RTSPTransport.new.source = none ∧
    RTSPTransport.new.layers = 0 := by
  decide

/-! ## Pure helper functions (`src/builders.rs`, module `helpers`) -/

/-- `helpers::transport_get_mime` from `src/builders.rs`: MIME type for a
transport mode and profile, with a total fallback for unrecognized values. -/
def transport_get_mime (trans : RTSPTransMode) (profile : RTSPProfile) : String :=
  match trans with
  | .rtp =>
    match profile with
    | .avp | .avpf => "application/x-rtp"
    | .savp | .savpf => "application/x-srtp"
    | _ => "application/x-rtp"
  | .rdt => "application/x-rdt"
  | _ => "application/octet-stream"

/-- `helpers::transport_get_manager` from `src/builders.rs`: manager element
name for a transport mode; the option argument is ignored. -/
def transport_get_manager (trans : RTSPTransMode) (_option : Nat) : Option String :=
  match trans with
  | .rtp => some "rtpbin"
  | .rdt => some "rdtmanager"
  | _ => none

/-- Counterexample to claim C4: for a transport mode with no established
convention (raw code 5), the MIME-type lookup does not report "no mapping"
(its result type cannot even express absence) — it returns the guessed
default string `application/octet-stream`; likewise an unrecognized profile
under RTP yields the guessed default `application/x-rtp`. -/
theorem mime_unknown_guesses_default :
    transport_get_mime (.unknown 5) .avp = "application/octet-stream" ∧
    transport_get_mime .rtp (.unknown 5) = "application/x-rtp" := by
  exact ⟨rfl, rfl⟩

/-- Claim C4 (amended): the manager lookup returns no value for modes with no
established convention and the fixed names for RTP/RDT regardless of the
option argument; the MIME lookup returns the fixed string for each recognized
{mode, profile} pair but is total, falling back to `application/octet-stream`
for unrecognized modes and to `application/x-rtp` for unrecognized profiles
under RTP. -/
theorem manager_mime_lookup_table (raw : Int) (opt : Nat) (p : RTSPProfile) :
    transport_get_manager .rtp opt = some "rtpbin" ∧
    transport_get_manager .rdt opt = some "rdtmanager" ∧
    transport_get_manager (.unknown raw) opt = none ∧
    transport_get_mime .rtp .avp = "application/x-rtp" ∧
    transport_get_mime .rtp .avpf = "application/x-rtp" ∧
    transport_get_mime .rtp .savp = "application/x-srtp" ∧
    transport_get_mime .rtp .savpf = "application/x-srtp" ∧
    transport_get_mime .rtp (.unknown raw) = "application/x-rtp" ∧
    transport_get_mime .rdt p = "application/x-rdt" ∧
    transport_get_mime (.unknown raw) p = "application/octet-stream" :=
  ⟨rfl, rfl, rfl, rfl, rfl, rfl, rfl, rfl, rfl, rfl⟩

/-- `helpers::default_port` from `src/builders.rs`. -/
def default_port (secure : Bool) : Nat :=
  if secure then 322 else 554

/-- Claim C8: the default-port helper returns 554 for the insecure scheme and
322 for the secure one, covering both boolean inputs. -/
theorem default_port_values :
    default_port false = 554 ∧ default_port true = 322 :=
  ⟨rfl, rfl⟩

/-- `helpers::options_from_uri` from `src/builders.rs`: locates the first
`?`, then walks the `&`-separated pairs of the query, splitting each at its
first `=` (a pair without `=` gets an empty value), pushing onto a vector. -/
def options_from_uri (uri : List Char) : List (List Char × List Char) :=
  match breakAtChar '?' uri with
  | (_, none) => []
  | (_, some query) =>
    (splitOnChar '&' query).foldl
      (fun options pair =>
        match breakAtChar '=' pair with
        | (key, some value) => options ++ [(key, value)]
        | (key, none) => options ++ [(key, [])])
      []

/-- The claim's description of `options_from_uri`: the empty list when there
is no `?`, otherwise one (key, value) pair per `&`-separated segment of the
text after the first `?`, each segment split at its first `=`, a segment
without `=` yielding an empty value. -/
def optionsFromUriSpec (uri : List Char) : List (List Char × List Char) :=
  match breakAtChar '?' uri with
  | (_, none) => []
  | (_, some query) =>
    (splitOnChar '&' query).map
      (fun seg =>
        match breakAtChar '=' seg with
        | (key, some value) => (key, value)
        | (key, none) => (key, []))

theorem foldl_push_eq_map {α β : Type} (f : α → β) (l : List α) :
    ∀ acc : List β, l.foldl (fun acc x => acc ++ [f x]) acc = acc ++ l.map f := by
  induction l with
  | nil => intro acc; simp
  | cons x xs ih => intro acc; simp [ih]

/-- Claim C9: `options_from_uri` returns the empty list when the URI holds no
`?`, and otherwise returns, in order, one (key, value) pair per
`&`-separated segment of the text after the first `?`, each segment split at
its first `=`, a segment without `=` yielding an empty value. -/
theorem options_from_uri_spec_equiv (uri : List Char) :
    ('?' ∉ uri → options_from_uri uri = []) ∧
    options_from_uri uri = optionsFromUriSpec uri := by
  constructor
  · intro h
    rw [options_from_uri, breakAtChar_no_sep '?' uri h]
  · rw [options_from_uri, optionsFromUriSpec]
    rcases breakAtChar '?' uri with ⟨before, _ | query⟩
    · rfl
    · simp only []
      have h1 := foldl_push_eq_map
        (fun seg : List Char =>
          match breakAtChar '=' seg with
          | (key, some value) => (key, value)
          | (key, none) => (key, ([] : List Char)))
        (splitOnChar '&' query) []
      simp only [List.nil_append] at h1
      rw [← h1]
      apply List.foldl_ext
      intro acc seg _
      rcases breakAtChar '=' seg with ⟨key, _ | value⟩ <;> rfl

/-- Witness for C9: a URI without `?` yields no options, and the helper
agrees with the claim's description on a concrete two-pair query. -/
theorem options_from_uri_spec_equiv_witness :
    ('?' ∉ ("rtsp://localhost:554/test".toList) →
      options_from_uri ("rtsp://localhost:554/test".toList) = []) ∧
    options_from_uri ("rtsp://localhost:554/test".toList) =
      optionsFromUriSpec ("rtsp://localhost:554/test".toList) :=
  options_from_uri_spec_equiv ("rtsp://localhost:554/test".toList)

/-! ## Connection builder (`src/builders.rs`, `RTSPConnectionBuilder`)

The source carries two timeout forms behind a version gate: a single
microsecond count (`v1_18`) and a seconds/microseconds pair (earlier).  Both
variants are modelled; `connect` passes the configured timeout to the
connection, defaulting to 20 seconds when none was configured. -/

structure RTSPConnectionBuilder where
  url : List Char
  proxyHost : Option (List Char)
  proxyPort : Option Nat
  authUser : Option (List Char)
  authPass : Option (List Char)
  tunneled : Bool
  httpMode : Bool
  timeout : Option Int
  timeoutSecs : Option Int
  timeoutUsecs : Option Int

namespace RTSPConnectionBuilder

/-- `RTSPConnectionBuilder::new`: every configuration field unset. -/
def new (url : List Char) : RTSPConnectionBuilder :=
  { url := url
    proxyHost := none
    proxyPort := none
    authUser := none
    authPass := none
    tunneled := false
    httpMode := false
    timeout := none
    timeoutSecs := none
    timeoutUsecs := none }

/-- The `timeout` setter of the `v1_18` variant (microseconds). -/
def timeoutUsec (b : RTSPConnectionBuilder) (t : Int) : RTSPConnectionBuilder :=
  { b with timeout := some t }

/-- The `timeout` setter of the pre-`v1_18` variant (seconds, microseconds). -/
def timeoutSecsUsecs (b : RTSPConnectionBuilder) (secs usecs : Int) : RTSPConnectionBuilder :=
  { b with timeoutSecs := some secs, timeoutUsecs := some usecs }

/-- The microsecond timeout `connect` passes to `RTSPConnection::connect` in
the `v1_18` variant: `self.timeout.unwrap_or(20_000_000)`. -/
def connectTimeoutUsec (b : RTSPConnectionBuilder) : Int :=
  b.timeout.getD 20000000

/-- The (seconds, microseconds) timeout `connect` passes to
`RTSPConnection::connect` in the pre-`v1_18` variant:
`(self.timeout_secs.unwrap_or(20), self.timeout_usecs.unwrap_or(0))`. -/
def connectTimeoutPre (b : RTSPConnectionBuilder) : Int × Int :=
  (b.timeoutSecs.getD 20, b.timeoutUsecs.getD 0)

end RTSPConnectionBuilder

/-- Claim C10: with no timeout configured, `RTSPConnectionBuilder::connect`
connects with the 20-second default (20,000,000 microseconds, or
secs = 20 / usecs = 0 in the pre-`v1_18` form); a configured timeout is
passed through to `connect` unchanged. -/
theorem builder_connect_timeout_defaults (u : List Char) (b : RTSPConnectionBuilder)
    (t secs usecs : Int) :
    (RTSPConnectionBuilder.new u).connectTimeoutUsec = 20000000 ∧
    (RTSPConnectionBuilder.new u).connectTimeoutPre = (20, 0) ∧
    (b.timeoutUsec t).connectTimeoutUsec = t ∧
    (b.timeoutSecsUsecs secs usecs).connectTimeoutPre = (secs, usecs) :=
  ⟨rfl, rfl, rfl, rfl⟩

/-! ## Batch send (`src/rtsp_connection.rs`, `RTSPConnection::send_messages`)

The wrapper passes the batch to `gst_rtsp_connection_send_messages_usec` and
maps its result code: on `GST_RTSP_OK` it returns `Ok` carrying the number of
messages of the batch (all of them were confirmed sent), on any other code it
returns `Err` with that code.  The C call's result code is abstracted as an
explicit argument. -/

/-- A wire message; its contents are irrelevant to the claims. -/
structure RTSPMessage where
  payload : List Nat
deriving DecidableEq

/-- `RTSPConnection::send_messages` (`src/rtsp_connection.rs` lines 198-218):
`n_messages` is the batch length and is returned on success; a non-OK code
from the C call becomes an error result. -/
def send_messages (messages : List RTSPMessage) (_timeout : Int)
    (ffiRet : RTSPResult) : Except RTSPResult Nat :=
  if ffiRet = RTSPResult.ok then .ok messages.length else .error ffiRet

/-- Claim C1: `send_messages` reports how many messages of the batch were
confirmed sent — a success carries exactly the batch length, and any failing
result code of the underlying send yields an error result (so a partial
batch is never silently reported as a success and never collapses to a bare
boolean); the failure reports at minimum that the batch did not fully
complete. -/
theorem send_messages_reports_batch_count (messages : List RTSPMessage)
    (timeout : Int) (ffiRet : RTSPResult) :
    (ffiRet = RTSPResult.ok →
      send_messages messages timeout ffiRet = .ok messages.length) ∧
    (ffiRet ≠ RTSPResult.ok →
      send_messages messages timeout ffiRet = .error ffiRet) ∧
    (ffiRet ≠ RTSPResult.ok →
      ∀ n, send_messages messages timeout ffiRet ≠ .ok n) := by
  refine ⟨fun h => by simp [send_messages, h], fun h => by simp [send_messages, h],
    fun h n => by simp [send_messages, h]⟩

/-- Witness for C1: a two-message batch succeeds with count 2, and a timeout
code from the underlying send yields an error, not a success. -/
theorem send_messages_reports_batch_count_witness :
    (RTSPResult.ok = RTSPResult.ok →
      send_messages [⟨[1]⟩, ⟨[2]⟩] 1000 RTSPResult.ok = .ok ([⟨[1]⟩, ⟨[2]⟩] :
        List RTSPMessage).length) ∧
    (RTSPResult.etimeout ≠ RTSPResult.ok →
      send_messages [⟨[1]⟩, ⟨[2]⟩] 1000 RTSPResult.etimeout = .error RTSPResult.etimeout) :=
  ⟨fun h => (send_messages_reports_batch_count [⟨[1]⟩, ⟨[2]⟩] 1000 RTSPResult.ok).1 h,
   fun h => ((send_messages_reports_batch_count [⟨[1]⟩, ⟨[2]⟩] 1000
      RTSPResult.etimeout).2.1) h⟩

/-! ## Clone independence of the string fields

The `glib::wrapper!` block of `src/rtsp_transport.rs` implements `copy` as a
shallow struct read followed by `g_strdup` of the `destination` and `source`
pointers, `free` as `g_free` of both pointers, and `set_destination` as
`g_free` of the old pointer followed by a fresh allocation.  To reason about
aliasing, strings live in an explicit heap of numbered cells and the
transport object stores cell addresses. -/

/-- A heap of allocated strings: `next` is the next fresh address. -/
@[ext]
structure StrHeap where
  next : Nat
  mem : Nat → Option (List Char)

/-- `g_strdup`: allocates a fresh cell holding a copy of the string. -/
def strdup (h : StrHeap) (s : List Char) : StrHeap × Nat :=
  ({ next := h.next + 1, mem := fun n => if n = h.next then some s else h.mem n }, h.next)

/-- `g_free`: releases a cell. -/
def strfree (h : StrHeap) (a : Nat) : StrHeap :=
  { h with mem := fun n => if n = a then none else h.mem n }

/-- The pointer-level transport object: `destination`/`source` are string
cell addresses (null pointers become `none`); the remaining fields are plain
values copied verbatim by `ptr::read` and are irrelevant to aliasing. -/
structure TransportObj where
  destination : Option Nat
  source : Option Nat

/-- The `copy` closure of the `glib::wrapper!` block: a shallow `ptr::read`
of the whole struct, then a `g_strdup` re-allocation of the non-null
`destination` and `source` pointers so the copy owns its own strings. -/
def copyTransportObj (h : StrHeap) (o : TransportObj) : StrHeap × TransportObj :=
  let hd : StrHeap × TransportObj :=
    match o.destination with
    | none => (h, o)
    | some a =>
      let (h2, na) := strdup h ((h.mem a).getD [])
      (h2, { o with destination := some na })
  match o.source with
  | none => hd
  | some a =>
    let (h2, na) := strdup hd.1 ((hd.1.mem a).getD [])
    (h2, { hd.2 with source := some na })

/-- `RTSPTransport::set_destination` (`src/rtsp_transport.rs` lines 219-227):
frees the old string, then stores a fresh copy of the new one (or null). -/
def setDestinationObj (h : StrHeap) (o : TransportObj) (d : Option (List Char)) :
    StrHeap × TransportObj :=
  let h1 :=
    match o.destination with
    | none => h
    | some a => strfree h a
  match d with
  | none => (h1, { o with destination := none })
  | some s =>
    let (h2, na) := strdup h1 s
    (h2, { o with destination := some na })

/-- The `destination` getter: null check, then read of the cell. -/
def getDestinationObj (h : StrHeap) (o : TransportObj) : Option (List Char) :=
  match o.destination with
  | none => none
  | some a => h.mem a

/-- Every address held by the object was allocated before `next`. -/
def objValid (h : StrHeap) (o : TransportObj) : Prop :=
  (∀ a, o.destination = some a → a < h.next) ∧
  (∀ a, o.source = some a → a < h.next)

end GstRtsp

namespace GstRtsp

/-- Claim C6: cloning a Transport deep-copies the destination string — after
the clone, setting the destination of either record (to any new value, or to
null) leaves what the other record's destination reads unchanged, and the
clone initially reads the same destination content as the original. -/
theorem clone_destination_independent (h : StrHeap) (o : TransportObj) (a : Nat)
    (s : List Char) (hv : objValid h o) (hd : o.destination = some a)
    (hs : h.mem a = some s) (d : Option (List Char)) :
    getDestinationObj (copyTransportObj h o).1 (copyTransportObj h o).2 =
      getDestinationObj h o ∧
    getDestinationObj
        (setDestinationObj (copyTransportObj h o).1 (copyTransportObj h o).2 d).1 o =
      getDestinationObj h o ∧
    getDestinationObj
        (setDestinationObj (copyTransportObj h o).1 o d).1 (copyTransportObj h o).2 =
      getDestinationObj (copyTransportObj h o).1 (copyTransportObj h o).2 := by
  obtain ⟨hvd, hvs⟩ := hv
  have ha : a < h.next := hvd a hd
  obtain ⟨od, os⟩ := o
  change od = some a at hd
  subst hd
  rcases os with _ | a2
  · have e1 : copyTransportObj h ⟨some a, none⟩ =
        ({ next := h.next + 1
           mem := fun n => if n = h.next then some s else h.mem n },
         ⟨some h.next, none⟩) := by
      simp [copyTransportObj, strdup, hs]
    rw [e1]
    refine ⟨?_, ?_, ?_⟩
    · simp only [getDestinationObj, hs]
      split_ifs <;> rfl
    · cases d with
      | none =>
        simp only [setDestinationObj, strfree, getDestinationObj, hs]
        split_ifs <;> first | rfl | (exfalso; omega)
      | some s2 =>
        simp only [setDestinationObj, strfree, strdup, getDestinationObj, hs]
        split_ifs <;> first | rfl | (exfalso; omega)
    · cases d with
      | none =>
        simp only [setDestinationObj, strfree, getDestinationObj]
        split_ifs <;> first | rfl | (exfalso; omega)
      | some s2 =>
        simp only [setDestinationObj, strfree, strdup, getDestinationObj]
        split_ifs <;> first | rfl | (exfalso; omega)
  · have ha2 : a2 < h.next := hvs a2 rfl
    have e1 : copyTransportObj h ⟨some a, some a2⟩ =
        ({ next := h.next + 2
           mem := fun n =>
             if n = h.next + 1 then some ((h.mem a2).getD [])
             else if n = h.next then some s else h.mem n },
         ⟨some h.next, some (h.next + 1)⟩) := by
      simp only [copyTransportObj, strdup, hs, Option.getD_some]
      refine Prod.ext ?_ rfl
      refine StrHeap.ext ?_ ?_
      · show h.next + 1 + 1 = h.next + 2
        omega
      funext n
      simp only []
      by_cases h1 : n = h.next + 1
      · subst h1
        rw [if_pos rfl, if_pos rfl, if_neg (by omega)]
      · rw [if_neg h1, if_neg h1]
    rw [e1]
    refine ⟨?_, ?_, ?_⟩
    · simp only [getDestinationObj, hs]
      split_ifs <;> first | rfl | (exfalso; omega)
    · cases d with
      | none =>
        simp only [setDestinationObj, strfree, getDestinationObj, hs]
        split_ifs <;> first | rfl | (exfalso; omega)
      | some s2 =>
        simp only [setDestinationObj, strfree, strdup, getDestinationObj, hs]
        split_ifs <;> first | rfl | (exfalso; omega)
    · cases d with
      | none =>
        simp only [setDestinationObj, strfree, getDestinationObj]
        split_ifs <;> first | rfl | (exfalso; omega)
      | some s2 =>
        simp only [setDestinationObj, strfree, strdup, getDestinationObj]
        split_ifs <;> first | rfl | (exfalso; omega)

/-- A concrete one-cell heap for the clone-independence witness. -/
def witnessHeap : StrHeap :=
  { next := 1, mem := fun n => if n = 0 then some ("224.0.0.1".toList) else none }

/-- A concrete transport object whose destination is the single heap cell. -/
def witnessObj : TransportObj := ⟨some 0, none⟩

/-- Witness for C6 at a concrete one-cell heap: the clone reads the same
destination, and overwriting the clone's destination with `10.0.0.1` leaves
the original's reading untouched (and symmetrically). -/
theorem clone_destination_independent_witness :
    getDestinationObj (copyTransportObj witnessHeap witnessObj).1
        (copyTransportObj witnessHeap witnessObj).2 =
      getDestinationObj witnessHeap witnessObj ∧
    getDestinationObj
        (setDestinationObj (copyTransportObj witnessHeap witnessObj).1
          (copyTransportObj witnessHeap witnessObj).2 (some ("10.0.0.1".toList))).1
        witnessObj =
      getDestinationObj witnessHeap witnessObj ∧
    getDestinationObj
        (setDestinationObj (copyTransportObj witnessHeap witnessObj).1 witnessObj
          (some ("10.0.0.1".toList))).1
        (copyTransportObj witnessHeap witnessObj).2 =
      getDestinationObj (copyTransportObj witnessHeap witnessObj).1
        (copyTransportObj witnessHeap witnessObj).2 :=
  clone_destination_independent witnessHeap witnessObj 0 ("224.0.0.1".toList)
    ⟨fun a ha => by injection ha with hh; show a < 1; omega,
     fun a ha => by cases ha⟩
    rfl rfl (some ("10.0.0.1".toList))

/-! ## Connection state machine (spec model)

`RTSPConnection` wraps an opaque C object; its `send`/`receive`/`read`/
`write` wrappers in `src/rtsp_connection.rs` forward to the C library, which
holds the connection state.  The state machine is modelled from the spec
(section 4.4): states Created → Connecting → Connected → Closed, and the
failure semantics of section 4.4/7.  The outcome of actual socket I/O on a
connected stream is abstracted as an explicit argument. -/

/-- The spec's error taxonomy (section 7), as far as the claims need it. -/
inductive RTSPErrorKind where
  | invalidUrl
  | invalidParameter
  | notConnected
  | alreadyConnected
  | timeout
  | connectionRefused
  | connectionClosed
  | protocolError
  | tlsError
  | resourceExhausted
  | unsupported
deriving DecidableEq, Repr

/-- Connection lifecycle states of section 4.4. -/
inductive ConnState where
  | created
  | connecting
  | connected
  | closed
deriving DecidableEq, Repr

/-- Modelled from the spec: the connection record — the lifecycle state plus
the configuration the claims mention. -/
structure ConnectionModel where
  url : List Char
  state : ConnState
  tunneled : Bool
  httpMode : Bool

/-- Modelled from the spec: `create(url)` binds the URL and performs no
network I/O — the connection starts in the `Created` state. -/
def connCreate (url : List Char) : ConnectionModel :=
  { url := url, state := .created, tunneled := false, httpMode := false }

/-- Modelled from the spec: `send(message, timeout)` — an I/O operation on a
connection that has not completed `connect` fails fast with the
not-connected kind; on a closed connection it fails with the closed kind;
only on a connected stream does the underlying I/O outcome `io` surface. -/
def connSend (c : ConnectionModel) (io : Except RTSPErrorKind Unit) :
    Except RTSPErrorKind Unit :=
  match c.state with
  | .connected => io
  | .closed => .error .connectionClosed
  | _ => .error .notConnected

/-- Modelled from the spec: `receive(message, timeout)`, same guard. -/
def connReceive (c : ConnectionModel) (io : Except RTSPErrorKind Unit) :
    Except RTSPErrorKind Unit :=
  match c.state with
  | .connected => io
  | .closed => .error .connectionClosed
  | _ => .error .notConnected

/-- Modelled from the spec: `read(buf, timeout)`, returning bytes read. -/
def connRead (c : ConnectionModel) (io : Except RTSPErrorKind Nat) :
    Except RTSPErrorKind Nat :=
  match c.state with
  | .connected => io
  | .closed => .error .connectionClosed
  | _ => .error .notConnected

/-- Modelled from the spec: `write(buf, timeout)`, returning bytes written. -/
def connWrite (c : ConnectionModel) (io : Except RTSPErrorKind Nat) :
    Except RTSPErrorKind Nat :=
  match c.state with
  | .connected => io
  | .closed => .error .connectionClosed
  | _ => .error .notConnected

/-- Claim C7: on a freshly-created connection on which `connect` has never
completed, `send`, `receive`, `read` and `write` all fail with the
not-connected kind, whatever the underlying I/O could have produced — the
operations return immediately with this error instead of touching the
stream. -/
theorem never_connected_ops_fail (url : List Char)
    (ioS ioR : Except RTSPErrorKind Unit) (ioRd ioW : Except RTSPErrorKind Nat) :
    connSend (connCreate url) ioS = .error .notConnected ∧
    connReceive (connCreate url) ioR = .error .notConnected ∧
    connRead (connCreate url) ioRd = .error .notConnected ∧
    connWrite (connCreate url) ioW = .error .notConnected :=
  ⟨rfl, rfl, rfl, rfl⟩

end GstRtsp

